import Mathlib

/-!
Shallow embedding of the experiment-workflow layer of
`src/pycaret/regression.py` (tabular-regression orchestration): the
score-grid assembly of the cross-validated trainer, the shared choose-better
policy of `tune_model` / `ensemble_model`, the `automl` selector, the
`compare_models` ranking table, the `predict_model` holdout evaluator,
the result-container mutation order, the `create_model` estimator-tag
validation, and `save_model` / `load_model` persistence.

Metric values computed from data are modelled over `ℝ` (the code
delegates `sqrt` / `log` to the numerical library; we use the exact real
operations).  Recorded (already rounded and stored) score values are
modelled over `ℚ`, keeping the selection and comparison logic fully
executable.
-/

namespace Pycaret

/-- The six regression metrics reported by every score grid, in the
column order used by the source (`MAE, MSE, RMSE, R2, RMSLE, MAPE`). -/
inductive Metric : Type
  | MAE
  | MSE
  | RMSE
  | R2
  | RMSLE
  | MAPE
deriving DecidableEq, Repr

/-- One row of a score grid: the six metric columns of
the DataFrame built with columns MAE, MSE, RMSE, R2, RMSLE, MAPE. -/
structure ScoreRow (α : Type) : Type where
  mae : α
  mse : α
  rmse : α
  r2 : α
  rmsle : α
  mape : α
deriving DecidableEq, Repr

instance {α : Type} [Zero α] : Inhabited (ScoreRow α) :=
  ⟨⟨0, 0, 0, 0, 0, 0⟩⟩

/-- Column lookup `row[compare_dimension]`. -/
def ScoreRow.metric {α : Type} (r : ScoreRow α) : Metric → α
  | Metric.MAE => r.mae
  | Metric.MSE => r.mse
  | Metric.RMSE => r.rmse
  | Metric.R2 => r.r2
  | Metric.RMSLE => r.rmsle
  | Metric.MAPE => r.mape

/-- The stored Mean summary row of a recorded grid:
`grid[compare_dimension][-2:][0]` reads the element at position
`len - 2`, i.e. the Mean row of a grid laid out as
`fold rows ++ [Mean, SD]`. -/
def gridMeanRow (grid : List (ScoreRow ℚ)) : ScoreRow ℚ :=
  grid.getD (grid.length - 2) default

/-! ### Choose-better policy (`tune_model`, lines 4713-4722, and
`ensemble_model`, lines 5443-5452)

Both sites compare the candidate and the freshly created baseline, via their
recorded cross-validation Mean value of `compare_dimension`:
for `R2` the candidate wins on `>`, for every other metric on `<`;
otherwise the baseline is kept. -/

/-- The choose-better branch of `tune_model`: returns `best_model` (the tuned
candidate) on strict improvement of the recorded Mean score, else the
`base_model`. -/
def tune_model_choice {α : Type} (compare_dimension : Metric)
    (best_model base_model : α) (tuned_results base_results : ℚ) : α :=
  if compare_dimension = Metric.R2 then
    if tuned_results > base_results then best_model else base_model
  else
    if tuned_results < base_results then best_model else base_model

/-- The choose-better branch of `ensemble_model`, identical in structure to
that of `tune_model`. -/
def ensemble_model_choice {α : Type} (compare_dimension : Metric)
    (model base_model : α) (ensembled_results base_results : ℚ) : α :=
  if compare_dimension = Metric.R2 then
    if ensembled_results > base_results then model else base_model
  else
    if ensembled_results < base_results then model else base_model

/-! ### `automl` (lines 8668-8701)

`scorer` collects, per recorded grid, the Mean value of the chosen
metric; `scorer.index(max(scorer))` (resp. `min`) picks the first index
attaining the best value; the model at that index of
`master_model_container` is finalized (refit on the entire dataset). -/

/-- Python `max` over the non-empty list `x :: xs`. -/
def pyListMax (x : ℚ) (xs : List ℚ) : ℚ :=
  xs.foldl max x

/-- Python `min` over the non-empty list `x :: xs`. -/
def pyListMin (x : ℚ) (xs : List ℚ) : ℚ :=
  xs.foldl min x

/-- Python `list.index(v)`: position of the first occurrence of `v`. -/
def listIndex (v : ℚ) : List ℚ → ℕ
  | [] => 0
  | x :: xs => if x = v then 0 else listIndex v xs + 1

/-- The `scorer` list of `automl(use_holdout=False)`: one recorded
cross-validation Mean value per stored grid, in container order. -/
def automl_scorer (create_model_container : List (List (ScoreRow ℚ)))
    (compare_dimension : Metric) : List ℚ :=
  create_model_container.map (fun grid => (gridMeanRow grid).metric compare_dimension)

/-- `index_scorer`: `scorer.index(max(scorer))` for `R2`, otherwise
`scorer.index(min(scorer))`. -/
def automl_index (scorer : List ℚ) (compare_dimension : Metric) : ℕ :=
  match scorer with
  | [] => 0
  | x :: xs =>
    if compare_dimension = Metric.R2 then listIndex (pyListMax x xs) (x :: xs)
    else listIndex (pyListMin x xs) (x :: xs)

/-- Which data a model object was last fit on: the training partition
only, or the entire dataset `X, y` (train plus test). -/
inductive FitData : Type
  | trainOnly
  | fullData
deriving DecidableEq, Repr

/-- A fitted model as stored in `master_model_container`: its recipe
identity plus which data it was last fit on. -/
structure FittedModel : Type where
  recipe : ℕ
  fitData : FitData
deriving DecidableEq, Repr

instance : Inhabited FittedModel :=
  ⟨⟨0, FitData.trainOnly⟩⟩

/-- `finalize_model` (line 8079): `model_final = clone(estimator)` then
`model_final.fit(X, y)` where `X, y` is the entire dataset. -/
def finalize_model (m : FittedModel) : FittedModel :=
  { m with fitData := FitData.fullData }

/-- `automl(optimize, use_holdout=False)`: select the index of the best
recorded cross-validation Mean value over `create_model_container`, take
that entry of `master_model_container`, and finalize it. -/
def automl (create_model_container : List (List (ScoreRow ℚ)))
    (master_model_container : List FittedModel) (compare_dimension : Metric) :
    FittedModel :=
  let scorer := automl_scorer create_model_container compare_dimension
  let index_scorer := automl_index scorer compare_dimension
  finalize_model (master_model_container.getD index_scorer default)

/-! ### `compare_models` (lines 2196-2277, 2452-2462)

With an explicit `whitelist`, the working catalog is built by the
tag-dispatch chain (an unknown tag appends nothing, every supported tag
appends exactly one catalog entry); one table row is produced per
catalog entry and the table is sorted on the chosen metric, descending
for `R2` and ascending otherwise. -/

/-- `available_estimators` (lines 2779-2781): the supported recipe tags. -/
def available_estimators : List String :=
  ["lr", "lasso", "ridge", "en", "lar", "llar", "omp", "br", "ard", "par",
   "ransac", "tr", "huber", "kr", "svm", "knn", "dt", "rf", "et", "ada",
   "gbr", "mlp", "xgboost", "lightgbm", "catboost"]

/-- Row comparison used by `sort_values(by=sort, ascending=False)`:
descending on the sort column. -/
def rowDesc (sort : Metric) (a b : String × ScoreRow ℚ) : Prop :=
  b.2.metric sort ≤ a.2.metric sort

/-- Row comparison used by `sort_values(by=sort, ascending=True)`:
ascending on the sort column. -/
def rowAsc (sort : Metric) (a b : String × ScoreRow ℚ) : Prop :=
  a.2.metric sort ≤ b.2.metric sort

instance (sort : Metric) : DecidableRel (rowDesc sort) :=
  fun a b => inferInstanceAs (Decidable (b.2.metric sort ≤ a.2.metric sort))

instance (sort : Metric) : DecidableRel (rowAsc sort) :=
  fun a b => inferInstanceAs (Decidable (a.2.metric sort ≤ b.2.metric sort))

instance (sort : Metric) : IsTotal (String × ScoreRow ℚ) (rowDesc sort) :=
  ⟨fun a b => le_total (b.2.metric sort) (a.2.metric sort)⟩

instance (sort : Metric) : IsTotal (String × ScoreRow ℚ) (rowAsc sort) :=
  ⟨fun a b => le_total (a.2.metric sort) (b.2.metric sort)⟩

instance (sort : Metric) : IsTrans (String × ScoreRow ℚ) (rowDesc sort) :=
  ⟨fun _ _ _ h1 h2 => le_trans h2 h1⟩

instance (sort : Metric) : IsTrans (String × ScoreRow ℚ) (rowAsc sort) :=
  ⟨fun _ _ _ h1 h2 => le_trans h1 h2⟩

/-- `compare_models` ranked table: the per-recipe cross-validation mean
scores are abstracted as `score`; one row per valid whitelist tag, then
the table is sorted on the chosen metric (descending for `R2`,
ascending otherwise). -/
def compare_models (score : String → ScoreRow ℚ) (whitelist : List String)
    (sort : Metric) : List (String × ScoreRow ℚ) :=
  let master_display :=
    (whitelist.filter (fun t => t ∈ available_estimators)).map (fun t => (t, score t))
  if sort = Metric.R2 then List.insertionSort (rowDesc sort) master_display
  else List.insertionSort (rowAsc sort) master_display

/-! ### Result-container mutation order (C6)

The state changes of a training call are modelled as an event trace in
source order; only container events change the `Containers` state
(`fit` / metric computation touch no experiment state). -/

/-- A state-relevant step of a training operation.  `appendCreate` /
`appendDisplay` / `appendMaster` / `popDisplay` are the Result-Container
mutations; `fitModel` and `scoreMetrics` are the compute steps. -/
inductive Event : Type
  | fitModel
  | scoreMetrics
  | appendCreate (grid : ℕ)
  | appendDisplay (grid : ℕ)
  | appendMaster (model : ℕ)
  | popDisplay
deriving DecidableEq, Repr

/-- Whether an event mutates one of the three Result Containers. -/
def Event.isContainerMutation : Event → Bool
  | Event.appendCreate _ => true
  | Event.appendDisplay _ => true
  | Event.appendMaster _ => true
  | Event.popDisplay => true
  | _ => false

/-- Whether an event is an append to a Result Container. -/
def Event.isAppend : Event → Bool
  | Event.appendCreate _ => true
  | Event.appendDisplay _ => true
  | Event.appendMaster _ => true
  | _ => false

/-- The three Result Containers (grids and models identified by id). -/
structure Containers : Type where
  create_model_container : List ℕ
  master_model_container : List ℕ
  display_container : List ℕ
deriving DecidableEq, Repr

/-- Effect of one event on the containers. -/
def stepEvent (s : Containers) : Event → Containers
  | Event.appendCreate g =>
    { s with create_model_container := s.create_model_container ++ [g] }
  | Event.appendDisplay g =>
    { s with display_container := s.display_container ++ [g] }
  | Event.appendMaster m =>
    { s with master_model_container := s.master_model_container ++ [m] }
  | Event.popDisplay =>
    { s with display_container := s.display_container.dropLast }
  | _ => s

/-- Run an event trace over a container state. -/
def runEvents (s : Containers) (es : List Event) : Containers :=
  es.foldl stepEvent s

/-- The `fold` iterations of the cross-validation loop: each fits the
recipe on the training rows of the fold and scores the held-out rows. -/
def cvLoop : ℕ → List Event
  | 0 => []
  | n + 1 => Event.fitModel :: Event.scoreMetrics :: cvLoop n

/-- `create_model` with cross-validation (lines 3175-3499): the fold
loop, the refit on the full training partition (line 3346), then the
three container appends (lines 3478-3483) directly before `return`. -/
def create_model_events (fold : ℕ) (grid model : ℕ) : List Event :=
  cvLoop fold ++ [Event.fitModel] ++
    [Event.appendCreate grid, Event.appendDisplay grid, Event.appendMaster model]

/-- `tune_model` (lines 4501-4818): CV-score the tuned candidate, refit
(line 4673), append its results (lines 4682-4687); with
`choose_better=True` run the internal `create_model` on the base recipe
(which appends the base results) and pop the display entry it left
(line 4725). -/
def tune_model_events (fold : ℕ) (grid model base_grid base_model : ℕ)
    (choose_better : Bool) : List Event :=
  cvLoop fold ++ [Event.fitModel] ++
    [Event.appendCreate grid, Event.appendDisplay grid, Event.appendMaster model] ++
    (if choose_better then create_model_events fold base_grid base_model ++ [Event.popDisplay]
     else [])

/-- `ensemble_model` (lines 5245-5456): identical state-change shape to
`tune_model` (appends at 5411-5416, choose-better subprocess and display
pop at 5438-5455). -/
def ensemble_model_events (fold : ℕ) (grid model base_grid base_model : ℕ)
    (choose_better : Bool) : List Event :=
  cvLoop fold ++ [Event.fitModel] ++
    [Event.appendCreate grid, Event.appendDisplay grid, Event.appendMaster model] ++
    (if choose_better then create_model_events fold base_grid base_model ++ [Event.popDisplay]
     else [])

/-- The last Result-Container mutation of a trace. -/
def lastContainerMutation (es : List Event) : Option Event :=
  (es.filter Event.isContainerMutation).getLast?

/-! ### `create_model` estimator-tag validation (lines 2784-2825, C9)

`sys.exit` on a validation failure is modelled as `Except.error`; the
containers passed in are returned untouched on that path. -/

/-- The estimator argument: a string tag or a pre-built instance. -/
inductive Estimator : Type
  | tag (s : String)
  | inst (recipe : ℕ)
deriving DecidableEq, Repr

/-- The remaining eager checks (lines 2795-2805): `method` requires
`ensemble=True`, `ensemble=True` requires a valid `method`. -/
def create_model_checks_rest (ensemble : Bool) (method : Option String) :
    Except String Unit :=
  if ensemble = false ∧ method ≠ none then
    Except.error "(Type Error): Method parameter only accepts value when ensemble is set to True."
  else if ensemble = true ∧ method = none then
    Except.error "(Type Error): Method parameter missing. Pass method = Bagging or Boosting."
  else if ensemble = true ∧ ¬ (method = some "Bagging" ∨ method = some "Boosting") then
    Except.error "(Value Error): Method parameter only accepts two values Bagging or Boosting."
  else Except.ok ()

/-- The eager parameter checks of `create_model`, in source order.  The
estimator-tag check (lines 2784-2786) runs first and only for string
tags. -/
def create_model_checks (estimator : Estimator) (ensemble : Bool)
    (method : Option String) : Except String Unit :=
  match estimator with
  | Estimator.tag s =>
    if s ∉ available_estimators then
      Except.error "(Value Error): Estimator Not Available. Please see docstring for list of available estimators."
    else create_model_checks_rest ensemble method
  | Estimator.inst _ => create_model_checks_rest ensemble method

/-- `create_model` with its validation prefix: on a failed check the
call terminates with the error and the containers are unchanged;
otherwise the training trace runs and the trained model id is
returned. -/
def create_model_run (estimator : Estimator) (ensemble : Bool)
    (method : Option String) (fold : ℕ) (grid model : ℕ) (s : Containers) :
    Except String ℕ × Containers :=
  match create_model_checks estimator ensemble method with
  | Except.error e => (Except.error e, s)
  | Except.ok _ => (Except.ok model, runEvents s (create_model_events fold grid model))

/-! ### `save_model` / `load_model` (lines 8470-8550, C8)

`joblib.dump` writes the file named model_name plus a pkl suffix to disk and `joblib.load`
reads the same file back; the disk is modelled as an association list
with most-recent-write-wins lookup, and deserialization returns exactly
the serialized object (the serializer is an external collaborator). -/

/-- A predictor: raw feature row to predicted value. -/
structure PredModel : Type where
  predictRow : List ℚ → ℚ

/-- The fitted preprocessing pipeline: raw feature row to transformed
feature row. -/
structure PrepPipe : Type where
  transformRow : List ℚ → List ℚ

/-- What `save_model` serializes: with `model_only=True` the bare model,
otherwise a copy of `prep_pipe` with the trained model appended as the
final step (lines 8470-8475). -/
inductive SaveArtifact : Type
  | nakedModel (m : PredModel)
  | pipelineWith (prep : PrepPipe) (m : PredModel)

/-- `save_model(model, model_name, model_only)`:
`joblib.dump` of the artifact under the pkl file name. -/
def save_model (prep_pipe : PrepPipe) (model : PredModel) (model_name : String)
    (model_only : Bool) (disk : List (String × SaveArtifact)) :
    List (String × SaveArtifact) :=
  let model_ := if model_only then SaveArtifact.nakedModel model
                else SaveArtifact.pipelineWith prep_pipe model
  (model_name ++ ".pkl", model_) :: disk

/-- `load_model(model_name)` with `platform=None`:
`joblib.load` of the pkl file name. -/
def load_model (model_name : String) (disk : List (String × SaveArtifact)) :
    Option SaveArtifact :=
  disk.lookup (model_name ++ ".pkl")

/-- Predictions an artifact produces on a raw input row, following
the estimator handling of `predict_model` (lines 7833-7843): a full pipeline
is applied as-is, a bare model is run behind the experiment-level
`prep_pipe`. -/
def artifact_predictions (prep_pipe : PrepPipe) (a : SaveArtifact)
    (x : List ℚ) : ℚ :=
  match a with
  | SaveArtifact.nakedModel m => m.predictRow (prep_pipe.transformRow x)
  | SaveArtifact.pipelineWith p m => m.predictRow (p.transformRow x)

/-! ### Fold metrics and the score grid (lines 3194-3331, C1/C2)

The fold loop computes, per fold, the six metrics of the held-out rows
(after the optional target inverse transform); `rmse = np.sqrt(mse)`
(line 3216).  The Mean/SD rows aggregate each metric column by
`np.mean` / `np.std` across folds (lines 3291-3304), and the grid is
laid out as the fold rows followed by the Mean and SD rows
(lines 3325-3330), finally rounded cell-wise (line 3331). -/

/-- `np.mean` of a list: sum divided by length. -/
noncomputable def listMean (xs : List ℝ) : ℝ :=
  xs.sum / xs.length

/-- `np.std` of a list: population standard deviation. -/
noncomputable def listStd (xs : List ℝ) : ℝ :=
  Real.sqrt (listMean (xs.map (fun x => (x - listMean xs) ^ 2)))

/-- `metrics.mean_absolute_error(ytest, pred_)`. -/
noncomputable def mean_absolute_error (ytest pred : List ℝ) : ℝ :=
  listMean (List.zipWith (fun a b => |a - b|) ytest pred)

/-- `metrics.mean_squared_error(ytest, pred_)`. -/
noncomputable def mean_squared_error (ytest pred : List ℝ) : ℝ :=
  listMean (List.zipWith (fun a b => (a - b) ^ 2) ytest pred)

/-- `metrics.r2_score(ytest, pred_)`:
`1 - SS_res / SS_tot`. -/
noncomputable def r2_score (ytest pred : List ℝ) : ℝ :=
  1 - (List.zipWith (fun a b => (a - b) ^ 2) ytest pred).sum /
      ((ytest.map (fun a => (a - listMean ytest) ^ 2)).sum)

/-- Line 3217: `np.sqrt(np.mean((log(|pred|+1) - log(|ytest|+1))**2))`. -/
noncomputable def rmsle_score (ytest pred : List ℝ) : ℝ :=
  Real.sqrt (listMean (List.zipWith
    (fun a b => (Real.log (|b| + 1) - Real.log (|a| + 1)) ^ 2) ytest pred))

/-- `calculate_mape` (lines 3106-3108): rows with `actual == 0` are
masked out, the rest contribute `|actual - prediction| / actual`. -/
noncomputable def calculate_mape (actual prediction : List ℝ) : ℝ :=
  listMean (((actual.zip prediction).filter (fun p => decide (p.1 ≠ 0))).map
    (fun p => |p.1 - p.2| / p.1))

/-- The held-out labels of one cross-validation fold (after inverse
transform) and predictions. -/
structure FoldData : Type where
  ytest : List ℝ
  pred : List ℝ

/-- The six metrics of one fold (lines 3214-3219). -/
noncomputable def scoreFold (fd : FoldData) : ScoreRow ℝ where
  mae := mean_absolute_error fd.ytest fd.pred
  mse := mean_squared_error fd.ytest fd.pred
  rmse := Real.sqrt (mean_squared_error fd.ytest fd.pred)
  r2 := r2_score fd.ytest fd.pred
  rmsle := rmsle_score fd.ytest fd.pred
  mape := calculate_mape fd.ytest fd.pred

/-- The Mean summary row: `np.mean` of each metric column across the
fold rows (lines 3291-3296). -/
noncomputable def meanRow (rows : List (ScoreRow ℝ)) : ScoreRow ℝ where
  mae := listMean (rows.map ScoreRow.mae)
  mse := listMean (rows.map ScoreRow.mse)
  rmse := listMean (rows.map ScoreRow.rmse)
  r2 := listMean (rows.map ScoreRow.r2)
  rmsle := listMean (rows.map ScoreRow.rmsle)
  mape := listMean (rows.map ScoreRow.mape)

/-- The SD summary row: `np.std` of each metric column across the fold
rows (lines 3298-3303). -/
noncomputable def stdRow (rows : List (ScoreRow ℝ)) : ScoreRow ℝ where
  mae := listStd (rows.map ScoreRow.mae)
  mse := listStd (rows.map ScoreRow.mse)
  rmse := listStd (rows.map ScoreRow.rmse)
  r2 := listStd (rows.map ScoreRow.r2)
  rmsle := listStd (rows.map ScoreRow.rmsle)
  mape := listStd (rows.map ScoreRow.mape)

/-- The unrounded ScoreGrid: fold rows in fold order, then the Mean row,
then the SD row (lines 3325-3330). -/
noncomputable def scoreGrid (folds : List FoldData) : List (ScoreRow ℝ) :=
  folds.map scoreFold ++
    [meanRow (folds.map scoreFold), stdRow (folds.map scoreFold)]

/-- Cell-wise application of the rounding function
(`model_results.round(round)`, line 3331). -/
noncomputable def mapRow (rnd : ℝ → ℝ) (r : ScoreRow ℝ) : ScoreRow ℝ where
  mae := rnd r.mae
  mse := rnd r.mse
  rmse := rnd r.rmse
  r2 := rnd r.r2
  rmsle := rnd r.rmsle
  mape := rnd r.mape

/-- The ScoreGrid returned by `create_model` with cross-validation:
the unrounded grid rounded cell-wise to the requested precision,
abstracted as any rounding map `rnd`. -/
noncomputable def create_model_result (rnd : ℝ → ℝ) (folds : List FoldData) :
    List (ScoreRow ℝ) :=
  (scoreGrid folds).map (mapRow rnd)

/-! ### `predict_model` (lines 7885-7943, C7) -/

/-- The stored holdout partition and the optional target
inverse-transformer (applied element-wise; absent transformer means the
`try`/`except` path leaves values untouched). -/
structure HoldoutContext : Type where
  xTest : List (List ℝ)
  yTest : List ℝ
  target_transformer : Option (ℝ → ℝ)

/-- A trained estimator as `predict_model` consumes it. -/
structure REstimator : Type where
  predictAll : List (List ℝ) → List ℝ

/-- `target_transformer.inverse_transform` under the silent
`try`/`except`: applied when a transformer exists, identity
otherwise. -/
noncomputable def invApply (t : Option (ℝ → ℝ)) (xs : List ℝ) : List ℝ :=
  match t with
  | none => xs
  | some f => xs.map f

/-- The six holdout metrics row `df_score` (lines 7904-7912). -/
noncomputable def holdoutScoreRow (ytest pred : List ℝ) : ScoreRow ℝ where
  mae := mean_absolute_error ytest pred
  mse := mean_squared_error ytest pred
  rmse := Real.sqrt (mean_squared_error ytest pred)
  r2 := r2_score ytest pred
  rmsle := rmsle_score ytest pred
  mape := calculate_mape ytest pred

/-- `predict_model(estimator, data)`: with `data=None` it predicts on
the stored test partition, inverse-transforms predictions and labels,
computes the six metrics and appends the row to `display_container`
(line 7935); with new data it returns predictions and computes no
metrics (the `df_score` append fails silently, lines 7934-7937). -/
noncomputable def predict_model (estimator : REstimator)
    (data : Option (List (List ℝ))) (ctx : HoldoutContext)
    (display_container : List (ScoreRow ℝ)) :
    List ℝ × List (ScoreRow ℝ) :=
  match data with
  | none =>
    let pred := invApply ctx.target_transformer (estimator.predictAll ctx.xTest)
    let ytest := invApply ctx.target_transformer ctx.yTest
    (pred, display_container ++ [holdoutScoreRow ytest pred])
  | some d =>
    (invApply ctx.target_transformer (estimator.predictAll d), display_container)

/-! ### Concrete inputs used by witnesses and counterexamples -/

/-- Two single-row folds: held-out labels `2` and `14`, both predicted
as `0`; fold MSEs are `4` and `196`, fold RMSEs `2` and `14`. -/
noncomputable def cfolds : List FoldData :=
  [⟨[2], [0]⟩, ⟨[14], [0]⟩]

/-- Shorthand for the index `automl` selects from a container history. -/
def automl_idx (create_model_container : List (List (ScoreRow ℚ)))
    (compare_dimension : Metric) : ℕ :=
  automl_index (automl_scorer create_model_container compare_dimension) compare_dimension

/-- A recorded score row with the same value in every column. -/
def mkRow (v : ℚ) : ScoreRow ℚ :=
  ⟨v, v, v, v, v, v⟩

/-- A two-entry training history: recorded Mean rows `3` and `5`. -/
def ccA : List (List (ScoreRow ℚ)) :=
  [[mkRow 3, mkRow 0], [mkRow 5, mkRow 0]]

/-- The matching model container for `ccA`. -/
def masterA : List FittedModel :=
  [⟨1, FitData.trainOnly⟩, ⟨2, FitData.trainOnly⟩]

/-- A three-entry history with a tie on the best Mean value `5`. -/
def ccB : List (List (ScoreRow ℚ)) :=
  [[mkRow 3, mkRow 0], [mkRow 5, mkRow 0], [mkRow 5, mkRow 0]]

/-! ## Theorems -/

/-- C3 (part of proof machinery): the choose-better logic of `tune_model`
and `ensemble_model` is decided by strict comparison of the two recorded
Mean scores. -/
theorem choose_better_characterization {α : Type} (compare_dimension : Metric)
    (tuned base : α) (tuned_results base_results : ℚ) :
    tune_model_choice compare_dimension tuned base tuned_results base_results =
      (if (if compare_dimension = Metric.R2 then base_results < tuned_results
           else tuned_results < base_results) then tuned else base) ∧
    ensemble_model_choice compare_dimension tuned base tuned_results base_results =
      (if (if compare_dimension = Metric.R2 then base_results < tuned_results
           else tuned_results < base_results) then tuned else base) := by
  by_cases h : compare_dimension = Metric.R2 <;>
    simp [tune_model_choice, ensemble_model_choice, h, gt_iff_lt]

/-- C3: every choose-better comparison (`tune_model` or `ensemble_model`
with `choose_better=True`) is decided by comparing the recorded
cross-validation Mean values of the candidate and the baseline of the chosen
metric: for `R2` higher wins and for every other metric lower wins; the
candidate is returned only on strict improvement, the baseline on a tie,
and the recorded score of the returned model on the optimize metric is
never worse than that of the baseline. -/
theorem choose_better_policy {α : Type} (compare_dimension : Metric)
    (tuned base : α) (tuned_results base_results : ℚ) :
    (tune_model_choice compare_dimension tuned base tuned_results base_results =
        (if (if compare_dimension = Metric.R2 then base_results < tuned_results
             else tuned_results < base_results) then tuned else base) ∧
      ensemble_model_choice compare_dimension tuned base tuned_results base_results =
        (if (if compare_dimension = Metric.R2 then base_results < tuned_results
             else tuned_results < base_results) then tuned else base)) ∧
    (tuned_results = base_results →
      tune_model_choice compare_dimension tuned base tuned_results base_results = base ∧
      ensemble_model_choice compare_dimension tuned base tuned_results base_results = base) ∧
    (compare_dimension = Metric.R2 →
      base_results ≤
        tune_model_choice compare_dimension tuned_results base_results tuned_results base_results ∧
      base_results ≤
        ensemble_model_choice compare_dimension tuned_results base_results tuned_results base_results) ∧
    (compare_dimension ≠ Metric.R2 →
      tune_model_choice compare_dimension tuned_results base_results tuned_results base_results ≤
        base_results ∧
      ensemble_model_choice compare_dimension tuned_results base_results tuned_results base_results ≤
        base_results) := by
  refine ⟨choose_better_characterization compare_dimension tuned base tuned_results base_results,
    ?_, ?_, ?_⟩
  · intro hEq
    by_cases h : compare_dimension = Metric.R2 <;>
      simp [tune_model_choice, ensemble_model_choice, h, hEq]
  · rintro rfl
    have hq : ∀ (c b : ℚ), b ≤ if b < c then c else b := by
      intro c b
      split
      · exact le_of_lt (by assumption)
      · exact le_refl b
    constructor
    · simpa [tune_model_choice, gt_iff_lt] using hq tuned_results base_results
    · simpa [ensemble_model_choice, gt_iff_lt] using hq tuned_results base_results
  · intro h
    have hq : ∀ (c b : ℚ), (if c < b then c else b) ≤ b := by
      intro c b
      split
      · exact le_of_lt (by assumption)
      · exact le_refl b
    constructor
    · simpa [tune_model_choice, h] using hq tuned_results base_results
    · simpa [ensemble_model_choice, h] using hq tuned_results base_results

/-- Witness for C3: with the MAE metric, candidate Mean MAE `3`,
baseline Mean MAE `5`, the candidate strictly improves and is kept. -/
theorem choose_better_policy_witness :
    tune_model_choice Metric.MAE (1 : ℚ) 2 3 5 =
        (if (if Metric.MAE = Metric.R2 then (5 : ℚ) < 3 else (3 : ℚ) < 5) then (1 : ℚ) else 2) ∧
      tune_model_choice Metric.MAE (3 : ℚ) 5 3 5 ≤ 5 :=
  ⟨(choose_better_policy Metric.MAE (1 : ℚ) 2 3 5).1.1,
    ((choose_better_policy Metric.MAE (1 : ℚ) 2 3 5).2.2.2 (by decide)).1⟩

/-- C9: a string estimator tag outside the supported catalog makes
`create_model` signal the invalid-model error before any computation,
with all three Result Containers unchanged. -/
theorem create_model_invalid_tag (s : String) (h : s ∉ available_estimators)
    (ensemble : Bool) (method : Option String) (fold grid model : ℕ)
    (st : Containers) :
    create_model_run (Estimator.tag s) ensemble method fold grid model st =
      (Except.error "(Value Error): Estimator Not Available. Please see docstring for list of available estimators.",
        st) := by
  simp [create_model_run, create_model_checks, h]

/-- Witness for C9: the unsupported tag `"abc"` is rejected with the
containers `⟨[], [], []⟩` untouched. -/
theorem create_model_invalid_tag_witness :
    ("abc" ∉ available_estimators) ∧
      create_model_run (Estimator.tag "abc") false none 10 0 0 ⟨[], [], []⟩ =
        (Except.error "(Value Error): Estimator Not Available. Please see docstring for list of available estimators.",
          ⟨[], [], []⟩) :=
  ⟨by decide, create_model_invalid_tag "abc" (by decide) false none 10 0 0 ⟨[], [], []⟩⟩

/-- C8: `save_model(m, name)` followed by `load_model(name)` yields an
object producing identical predictions to `m` on the same input (the
bare model and the saved pipeline-plus-model both run the model behind
the preprocessing pipeline of the experiment, as `predict_model` does). -/
theorem save_load_round_trip (prep_pipe : PrepPipe) (model : PredModel)
    (model_name : String) (model_only : Bool)
    (disk : List (String × SaveArtifact)) (x : List ℚ) :
    ∃ a, load_model model_name (save_model prep_pipe model model_name model_only disk) = some a ∧
      artifact_predictions prep_pipe a x =
        artifact_predictions prep_pipe (SaveArtifact.nakedModel model) x := by
  cases model_only
  · exact ⟨SaveArtifact.pipelineWith prep_pipe model,
      by simp [load_model, save_model, List.lookup], rfl⟩
  · exact ⟨SaveArtifact.nakedModel model,
      by simp [load_model, save_model, List.lookup], rfl⟩

/-- C7: with no new data, `predict_model` predicts on the stored holdout
partition, computes all six metrics against the known labels after the
target inverse transform, and appends exactly one metrics row to the
display container; with new data it returns predictions and computes no
metrics. -/
theorem predict_model_spec (estimator : REstimator) (ctx : HoldoutContext)
    (display_container : List (ScoreRow ℝ)) (d : List (List ℝ)) :
    (predict_model estimator none ctx display_container =
        (invApply ctx.target_transformer (estimator.predictAll ctx.xTest),
          display_container ++
            [{ mae := mean_absolute_error (invApply ctx.target_transformer ctx.yTest)
                 (invApply ctx.target_transformer (estimator.predictAll ctx.xTest)),
               mse := mean_squared_error (invApply ctx.target_transformer ctx.yTest)
                 (invApply ctx.target_transformer (estimator.predictAll ctx.xTest)),
               rmse := Real.sqrt (mean_squared_error (invApply ctx.target_transformer ctx.yTest)
                 (invApply ctx.target_transformer (estimator.predictAll ctx.xTest))),
               r2 := r2_score (invApply ctx.target_transformer ctx.yTest)
                 (invApply ctx.target_transformer (estimator.predictAll ctx.xTest)),
               rmsle := rmsle_score (invApply ctx.target_transformer ctx.yTest)
                 (invApply ctx.target_transformer (estimator.predictAll ctx.xTest)),
               mape := calculate_mape (invApply ctx.target_transformer ctx.yTest)
                 (invApply ctx.target_transformer (estimator.predictAll ctx.xTest)) }]) ∧
      (predict_model estimator none ctx display_container).2.length =
        display_container.length + 1) ∧
    predict_model estimator (some d) ctx display_container =
      (invApply ctx.target_transformer (estimator.predictAll d), display_container) := by
  refine ⟨⟨rfl, ?_⟩, rfl⟩
  simp [predict_model]

theorem runEvents_append (s : Containers) (es fs : List Event) :
    runEvents s (es ++ fs) = runEvents (runEvents s es) fs :=
  List.foldl_append _ _ _ _

theorem runEvents_cvLoop (s : Containers) (f : ℕ) : runEvents s (cvLoop f) = s := by
  induction f with
  | zero => rfl
  | succ n ih => simpa [cvLoop, runEvents, stepEvent] using ih

theorem filter_cvLoop (f : ℕ) :
    (cvLoop f).filter Event.isContainerMutation = [] := by
  induction f with
  | zero => rfl
  | succ n ih => simpa [cvLoop, List.filter, Event.isContainerMutation] using ih

theorem runEvents_create_model (s : Containers) (fold grid model : ℕ) :
    runEvents s (create_model_events fold grid model) =
      ⟨s.create_model_container ++ [grid], s.master_model_container ++ [model],
        s.display_container ++ [grid]⟩ := by
  rw [create_model_events, runEvents_append, runEvents_append, runEvents_cvLoop]
  rfl

theorem tune_model_events_false (fold grid model base_grid base_model : ℕ) :
    tune_model_events fold grid model base_grid base_model false =
      create_model_events fold grid model := by
  simp [tune_model_events, create_model_events]

theorem tune_model_events_true (fold grid model base_grid base_model : ℕ) :
    tune_model_events fold grid model base_grid base_model true =
      create_model_events fold grid model ++
        create_model_events fold base_grid base_model ++ [Event.popDisplay] := by
  simp [tune_model_events, create_model_events]

/-- Counterexample for C6: for `tune_model` with `choose_better=True`
(fold 2, tuned grid/model ids 0/10, base ids 1/11) the last
Result-Container state change of the call is the display pop that
follows the internal base-model `create_model` subprocess, not an append
of the results of the call itself. -/
theorem tune_model_last_mutation_not_append :
    lastContainerMutation (tune_model_events 2 0 10 1 11 true) = some Event.popDisplay ∧
      Event.isAppend Event.popDisplay = false := by
  constructor
  · rfl
  · rfl

/-- C6 amended: every cross-validated training operation mutates the
Result Containers as its final state changes and records its outcome
before returning: `create_model` ends exactly with its three appends;
`tune_model` / `ensemble_model` (same trace shape) end with container
mutations — their own appends when `choose_better=False`, and with
`choose_better=True` the internal base-model `create_model` appends
followed by a display pop — and in every case the state after return
extends the score-grid and model containers with the results of this
call (plus, under `choose_better`, those of the base model) and the
display container with exactly the grid of this call. -/
theorem containers_mutated_last (fold grid model base_grid base_model : ℕ)
    (choose_better : Bool) (s : Containers) :
    (create_model_events fold grid model).getLast? = some (Event.appendMaster model) ∧
    runEvents s (create_model_events fold grid model) =
      ⟨s.create_model_container ++ [grid], s.master_model_container ++ [model],
        s.display_container ++ [grid]⟩ ∧
    ensemble_model_events fold grid model base_grid base_model choose_better =
      tune_model_events fold grid model base_grid base_model choose_better ∧
    ((tune_model_events fold grid model base_grid base_model choose_better).getLast?.map
        Event.isContainerMutation) = some true ∧
    lastContainerMutation (tune_model_events fold grid model base_grid base_model choose_better) =
      some (if choose_better then Event.popDisplay else Event.appendMaster model) ∧
    runEvents s (tune_model_events fold grid model base_grid base_model choose_better) =
      ⟨s.create_model_container ++ [grid] ++ (if choose_better then [base_grid] else []),
        s.master_model_container ++ [model] ++ (if choose_better then [base_model] else []),
        s.display_container ++ [grid]⟩ := by
  have hlastc : (create_model_events fold grid model).getLast? =
      some (Event.appendMaster model) := by
    simp [create_model_events, List.getLast?_append_cons]
  refine ⟨hlastc, runEvents_create_model s fold grid model, rfl, ?_, ?_, ?_⟩
  · cases choose_better
    · rw [tune_model_events_false, hlastc]
      rfl
    · rw [tune_model_events_true, List.getLast?_concat]
      rfl
  · cases choose_better
    · rw [if_neg (by simp), tune_model_events_false, lastContainerMutation]
      simp [create_model_events, List.filter_append, filter_cvLoop,
        Event.isContainerMutation, List.getLast?_append_cons]
    · rw [if_pos rfl, tune_model_events_true, lastContainerMutation]
      rw [List.filter_append]
      simp [Event.isContainerMutation, List.getLast?_concat]
  · cases choose_better
    · rw [tune_model_events_false, runEvents_create_model]
      simp
    · rw [tune_model_events_true, runEvents_append, runEvents_append,
        runEvents_create_model, runEvents_create_model]
      simp [runEvents, stepEvent, List.dropLast_concat]

theorem pyListMax_best (x : ℚ) (xs : List ℚ) :
    pyListMax x xs ∈ x :: xs ∧ ∀ y ∈ x :: xs, y ≤ pyListMax x xs := by
  induction xs generalizing x with
  | nil =>
    refine ⟨List.mem_cons_self _ _, ?_⟩
    intro y hy
    rcases List.mem_cons.mp hy with rfl | hy
    · exact le_refl y
    · cases hy
  | cons a l ih =>
    have hstep : pyListMax x (a :: l) = pyListMax (max x a) l := rfl
    constructor
    · rw [hstep]
      rcases List.mem_cons.mp (ih (max x a)).1 with hm | hm
      · rcases max_choice x a with hc | hc
        · rw [hm, hc]; exact List.mem_cons_self _ _
        · rw [hm, hc]; exact List.mem_cons_of_mem _ (List.mem_cons_self _ _)
      · exact List.mem_cons_of_mem _ (List.mem_cons_of_mem _ hm)
    · intro y hy
      rw [hstep]
      rcases List.mem_cons.mp hy with rfl | hy
      · exact le_trans (le_max_left y a) ((ih (max y a)).2 _ (List.mem_cons_self _ _))
      · rcases List.mem_cons.mp hy with rfl | hy
        · exact le_trans (le_max_right x y) ((ih (max x y)).2 _ (List.mem_cons_self _ _))
        · exact (ih (max x a)).2 y (List.mem_cons_of_mem _ hy)

theorem pyListMin_best (x : ℚ) (xs : List ℚ) :
    pyListMin x xs ∈ x :: xs ∧ ∀ y ∈ x :: xs, pyListMin x xs ≤ y := by
  induction xs generalizing x with
  | nil =>
    refine ⟨List.mem_cons_self _ _, ?_⟩
    intro y hy
    rcases List.mem_cons.mp hy with rfl | hy
    · exact le_refl y
    · cases hy
  | cons a l ih =>
    have hstep : pyListMin x (a :: l) = pyListMin (min x a) l := rfl
    constructor
    · rw [hstep]
      rcases List.mem_cons.mp (ih (min x a)).1 with hm | hm
      · rcases min_choice x a with hc | hc
        · rw [hm, hc]; exact List.mem_cons_self _ _
        · rw [hm, hc]; exact List.mem_cons_of_mem _ (List.mem_cons_self _ _)
      · exact List.mem_cons_of_mem _ (List.mem_cons_of_mem _ hm)
    · intro y hy
      rw [hstep]
      rcases List.mem_cons.mp hy with rfl | hy
      · exact le_trans ((ih (min y a)).2 _ (List.mem_cons_self _ _)) (min_le_left y a)
      · rcases List.mem_cons.mp hy with rfl | hy
        · exact le_trans ((ih (min x y)).2 _ (List.mem_cons_self _ _)) (min_le_right x y)
        · exact (ih (min x a)).2 y (List.mem_cons_of_mem _ hy)

theorem listIndex_lt_length (v : ℚ) (xs : List ℚ) (h : v ∈ xs) :
    listIndex v xs < xs.length := by
  induction xs with
  | nil => cases h
  | cons a l ih =>
    by_cases ha : a = v
    · simp [listIndex, ha]
    · have hv : v ∈ l := (List.mem_cons.mp h).resolve_left (fun hv => ha hv.symm)
      simpa [listIndex, ha] using Nat.succ_lt_succ (ih hv)

theorem getD_listIndex (v : ℚ) (xs : List ℚ) (h : v ∈ xs) :
    xs.getD (listIndex v xs) 0 = v := by
  induction xs with
  | nil => cases h
  | cons a l ih =>
    by_cases ha : a = v
    · simp [listIndex, ha]
    · have hv : v ∈ l := (List.mem_cons.mp h).resolve_left (fun hv => ha hv.symm)
      simpa [listIndex, ha] using ih hv

theorem getD_lt_listIndex_ne (v : ℚ) (xs : List ℚ) (j : ℕ)
    (hj : j < listIndex v xs) : xs.getD j 0 ≠ v := by
  induction xs generalizing j with
  | nil => simp [listIndex] at hj
  | cons a l ih =>
    by_cases ha : a = v
    · simp [listIndex, ha] at hj
    · cases j with
      | zero => simpa using ha
      | succ n =>
        have hn : n < listIndex v l := by
          simpa [listIndex, ha] using hj
        simpa using ih n hn

theorem automl_scorer_length (cc : List (List (ScoreRow ℚ))) (dim : Metric) :
    (automl_scorer cc dim).length = cc.length :=
  List.length_map _ _

/-- The selected index attains the best recorded value and is in range. -/
theorem automl_idx_spec (cc : List (List (ScoreRow ℚ))) (dim : Metric)
    (hne : cc ≠ []) :
    automl_idx cc dim < (automl_scorer cc dim).length ∧
    (∀ j, j < (automl_scorer cc dim).length →
      (dim = Metric.R2 →
        (automl_scorer cc dim).getD j 0 ≤ (automl_scorer cc dim).getD (automl_idx cc dim) 0) ∧
      (dim ≠ Metric.R2 →
        (automl_scorer cc dim).getD (automl_idx cc dim) 0 ≤ (automl_scorer cc dim).getD j 0)) := by
  have hsne : automl_scorer cc dim ≠ [] := by
    intro hcon
    exact hne (List.map_eq_nil_iff.mp hcon)
  obtain ⟨x, xs, hxs⟩ := List.exists_cons_of_ne_nil hsne
  by_cases hdim : dim = Metric.R2
  · have hidx : automl_idx cc dim = listIndex (pyListMax x xs) (x :: xs) := by
      rw [automl_idx, hxs]
      simp [automl_index, hdim]
    have hmem : pyListMax x xs ∈ x :: xs := (pyListMax_best x xs).1
    have hbest : (automl_scorer cc dim).getD (automl_idx cc dim) 0 = pyListMax x xs := by
      rw [hxs, hidx]
      exact getD_listIndex _ _ hmem
    constructor
    · rw [hxs, hidx]
      exact listIndex_lt_length _ _ hmem
    · intro j hj
      refine ⟨fun _ => ?_, fun hcon => absurd hdim hcon⟩
      rw [hbest]
      have hjmem : (automl_scorer cc dim).getD j 0 ∈ x :: xs := by
        rw [hxs] at hj ⊢
        rw [List.getD_eq_getElem _ _ hj]
        exact List.getElem_mem _
      exact (pyListMax_best x xs).2 _ hjmem
  · have hidx : automl_idx cc dim = listIndex (pyListMin x xs) (x :: xs) := by
      rw [automl_idx, hxs]
      simp [automl_index, hdim]
    have hmem : pyListMin x xs ∈ x :: xs := (pyListMin_best x xs).1
    have hbest : (automl_scorer cc dim).getD (automl_idx cc dim) 0 = pyListMin x xs := by
      rw [hxs, hidx]
      exact getD_listIndex _ _ hmem
    constructor
    · rw [hxs, hidx]
      exact listIndex_lt_length _ _ hmem
    · intro j hj
      refine ⟨fun hcon => absurd hcon hdim, fun _ => ?_⟩
      rw [hbest]
      have hjmem : (automl_scorer cc dim).getD j 0 ∈ x :: xs := by
        rw [hxs] at hj ⊢
        rw [List.getD_eq_getElem _ _ hj]
        exact List.getElem_mem _
      exact (pyListMin_best x xs).2 _ hjmem

/-- C4: with a non-empty training history, `automl(use_holdout=False)`
returns the model stored at the index of the best recorded
cross-validation Mean value of the chosen metric (argmax for `R2`,
argmin for every other metric), refit on the entire dataset; the
selection only reads the recorded Mean rows. -/
theorem automl_selects_best (cc : List (List (ScoreRow ℚ)))
    (master : List FittedModel) (dim : Metric) (hne : cc ≠ [])
    (hlen : master.length = cc.length) :
    automl_idx cc dim < master.length ∧
    automl cc master dim = finalize_model (master.getD (automl_idx cc dim) default) ∧
    (automl cc master dim).fitData = FitData.fullData ∧
    (automl cc master dim).recipe = (master.getD (automl_idx cc dim) default).recipe ∧
    ∀ j, j < (automl_scorer cc dim).length →
      (dim = Metric.R2 →
        (automl_scorer cc dim).getD j 0 ≤ (automl_scorer cc dim).getD (automl_idx cc dim) 0) ∧
      (dim ≠ Metric.R2 →
        (automl_scorer cc dim).getD (automl_idx cc dim) 0 ≤ (automl_scorer cc dim).getD j 0) := by
  obtain ⟨hlt, hbest⟩ := automl_idx_spec cc dim hne
  refine ⟨?_, rfl, rfl, rfl, hbest⟩
  rw [hlen, ← automl_scorer_length cc dim]
  exact hlt

/-- Witness for C4: on the history `ccA` (Mean `R2` values `3` then `5`)
with models `1` and `2`, `automl` picks index 1 and returns model `2`
refit on the full dataset. -/
theorem automl_selects_best_witness :
    ccA ≠ [] ∧ masterA.length = ccA.length ∧
      (automl_idx ccA Metric.R2 < masterA.length ∧
        automl ccA masterA Metric.R2 =
          finalize_model (masterA.getD (automl_idx ccA Metric.R2) default) ∧
        (automl ccA masterA Metric.R2).fitData = FitData.fullData ∧
        (automl ccA masterA Metric.R2).recipe =
          (masterA.getD (automl_idx ccA Metric.R2) default).recipe ∧
        ∀ j, j < (automl_scorer ccA Metric.R2).length →
          (Metric.R2 = Metric.R2 →
            (automl_scorer ccA Metric.R2).getD j 0 ≤
              (automl_scorer ccA Metric.R2).getD (automl_idx ccA Metric.R2) 0) ∧
          (Metric.R2 ≠ Metric.R2 →
            (automl_scorer ccA Metric.R2).getD (automl_idx ccA Metric.R2) 0 ≤
              (automl_scorer ccA Metric.R2).getD j 0)) :=
  ⟨by decide, by decide, automl_selects_best ccA masterA Metric.R2 (by decide) (by decide)⟩

/-- C10: ties on the best recorded value of the chosen metric resolve to
the smallest container index, i.e. the earliest-trained model. -/
theorem automl_tie_breaks_earliest (cc : List (List (ScoreRow ℚ)))
    (dim : Metric) (hne : cc ≠ []) :
    ∀ j, j < (automl_scorer cc dim).length →
      (automl_scorer cc dim).getD j 0 =
        (automl_scorer cc dim).getD (automl_idx cc dim) 0 →
      automl_idx cc dim ≤ j := by
  intro j _ heq
  by_contra hcon
  have hj : j < automl_idx cc dim := Nat.lt_of_not_le hcon
  have hsne : automl_scorer cc dim ≠ [] := by
    intro h
    exact hne (List.map_eq_nil_iff.mp h)
  obtain ⟨x, xs, hxs⟩ := List.exists_cons_of_ne_nil hsne
  by_cases hdim : dim = Metric.R2
  · have hidx : automl_idx cc dim = listIndex (pyListMax x xs) (x :: xs) := by
      rw [automl_idx, hxs]
      simp [automl_index, hdim]
    have hbest : (automl_scorer cc dim).getD (automl_idx cc dim) 0 = pyListMax x xs := by
      rw [hxs, hidx]
      exact getD_listIndex _ _ (pyListMax_best x xs).1
    have hne2 : (automl_scorer cc dim).getD j 0 ≠ pyListMax x xs := by
      rw [hxs]
      exact getD_lt_listIndex_ne _ _ j (by rw [← hidx]; exact hj)
    exact hne2 (by rw [heq, hbest])
  · have hidx : automl_idx cc dim = listIndex (pyListMin x xs) (x :: xs) := by
      rw [automl_idx, hxs]
      simp [automl_index, hdim]
    have hbest : (automl_scorer cc dim).getD (automl_idx cc dim) 0 = pyListMin x xs := by
      rw [hxs, hidx]
      exact getD_listIndex _ _ (pyListMin_best x xs).1
    have hne2 : (automl_scorer cc dim).getD j 0 ≠ pyListMin x xs := by
      rw [hxs]
      exact getD_lt_listIndex_ne _ _ j (by rw [← hidx]; exact hj)
    exact hne2 (by rw [heq, hbest])

/-- Witness for C10: on `ccB` (Mean `R2` values `3, 5, 5`) the best value
`5` is tied at indices 1 and 2; the selected index is at most 2, and by
evaluation it is the earlier index 1. -/
theorem automl_tie_breaks_earliest_witness :
    ccB ≠ [] ∧ automl_idx ccB Metric.R2 ≤ 2 ∧ automl_idx ccB Metric.R2 = 1 :=
  ⟨by decide,
    automl_tie_breaks_earliest ccB Metric.R2 (by decide) 2 (by decide) (by decide),
    by decide⟩

theorem head_best_of_sorted {α : Type} [Inhabited α] (r : α → α → Prop)
    (l : List α) (hs : List.Sorted r l) (hr : ∀ a : α, r a a) :
    ∀ row ∈ l, r (l.getD 0 default) row := by
  cases l with
  | nil =>
    intro row h
    cases h
  | cons h t =>
    intro row hrow
    rcases List.mem_cons.mp hrow with rfl | hrow
    · exact hr row
    · exact List.rel_of_sorted_cons hs row hrow

/-- C5: `compare_models` with an explicit inclusion list of `N` distinct
valid tags returns a ranked table of exactly `N` rows, sorted on the
chosen metric so that the first row holds the maximum value for `R2` and
the minimum value for any other metric. -/
theorem compare_models_table (score : String → ScoreRow ℚ)
    (whitelist : List String) (sort : Metric)
    (hvalid : ∀ t ∈ whitelist, t ∈ available_estimators)
    (_hnodup : whitelist.Nodup) :
    (compare_models score whitelist sort).length = whitelist.length ∧
    ∀ row ∈ compare_models score whitelist sort,
      (sort = Metric.R2 →
        row.2.metric sort ≤
          ((compare_models score whitelist sort).getD 0 default).2.metric sort) ∧
      (sort ≠ Metric.R2 →
        ((compare_models score whitelist sort).getD 0 default).2.metric sort ≤
          row.2.metric sort) := by
  have hfilter : whitelist.filter (fun t => t ∈ available_estimators) = whitelist :=
    List.filter_eq_self.mpr (fun t ht => decide_eq_true (hvalid t ht))
  constructor
  · by_cases hs : sort = Metric.R2 <;>
      simp [compare_models, hs, hfilter, List.length_insertionSort]
  · intro row hrow
    constructor
    · intro hs
      have hsorted : List.Sorted (rowDesc sort) (compare_models score whitelist sort) := by
        simp only [compare_models, hs, if_pos rfl, hfilter]
        exact List.sorted_insertionSort _ _
      exact head_best_of_sorted (rowDesc sort) _ hsorted (fun a => le_refl _) row hrow
    · intro hs
      have hsorted : List.Sorted (rowAsc sort) (compare_models score whitelist sort) := by
        simp only [compare_models, if_neg hs, hfilter]
        exact List.sorted_insertionSort _ _
      exact head_best_of_sorted (rowAsc sort) _ hsorted (fun a => le_refl _) row hrow

/-- Witness for C5: two valid distinct tags and the `MAE` (ascending)
branch. -/
theorem compare_models_table_witness :
    (∀ t ∈ (["lr", "ridge"] : List String), t ∈ available_estimators) ∧
      ((compare_models (fun _ => mkRow 1) ["lr", "ridge"] Metric.MAE).length =
          (["lr", "ridge"] : List String).length ∧
        ∀ row ∈ compare_models (fun _ => mkRow 1) ["lr", "ridge"] Metric.MAE,
          (Metric.MAE = Metric.R2 →
            row.2.metric Metric.MAE ≤
              ((compare_models (fun _ => mkRow 1) ["lr", "ridge"] Metric.MAE).getD 0
                  default).2.metric Metric.MAE) ∧
          (Metric.MAE ≠ Metric.R2 →
            ((compare_models (fun _ => mkRow 1) ["lr", "ridge"] Metric.MAE).getD 0
                default).2.metric Metric.MAE ≤ row.2.metric Metric.MAE)) :=
  ⟨by decide,
    compare_models_table (fun _ => mkRow 1) ["lr", "ridge"] Metric.MAE
      (by decide) (by decide)⟩

theorem sum_map_sub_le (xs : List ℝ) (rnd : ℝ → ℝ) (eps : ℝ)
    (h : ∀ x, |rnd x - x| ≤ eps) :
    |(xs.map rnd).sum - xs.sum| ≤ xs.length * eps := by
  induction xs with
  | nil => simp
  | cons a l ih =>
    simp only [List.map_cons, List.sum_cons, List.length_cons]
    have heq : rnd a + (l.map rnd).sum - (a + l.sum) =
        (rnd a - a) + ((l.map rnd).sum - l.sum) := by ring
    rw [heq]
    calc |(rnd a - a) + ((l.map rnd).sum - l.sum)|
        ≤ |rnd a - a| + |(l.map rnd).sum - l.sum| := abs_add _ _
      _ ≤ eps + l.length * eps := add_le_add (h a) ih
      _ = (l.length + 1 : ℕ) * eps := by push_cast; ring

theorem listMean_map_sub_le (xs : List ℝ) (rnd : ℝ → ℝ) (eps : ℝ)
    (hx : xs ≠ []) (h : ∀ x, |rnd x - x| ≤ eps) :
    |listMean (xs.map rnd) - listMean xs| ≤ eps := by
  have hlen : (0 : ℝ) < xs.length := by
    exact_mod_cast List.length_pos.mpr hx
  rw [listMean, listMean, List.length_map, div_sub_div_same, abs_div,
    abs_of_pos hlen, div_le_iff₀ hlen]
  calc |(xs.map rnd).sum - xs.sum| ≤ xs.length * eps := sum_map_sub_le xs rnd eps h
    _ = eps * xs.length := by ring

theorem mean_of_rounded_close (xs : List ℝ) (rnd : ℝ → ℝ) (eps : ℝ)
    (hx : xs ≠ []) (h : ∀ x, |rnd x - x| ≤ eps) :
    |listMean (xs.map rnd) - rnd (listMean xs)| ≤ 2 * eps := by
  have heq : listMean (xs.map rnd) - rnd (listMean xs) =
      (listMean (xs.map rnd) - listMean xs) + (listMean xs - rnd (listMean xs)) := by
    ring
  rw [heq]
  calc |(listMean (xs.map rnd) - listMean xs) + (listMean xs - rnd (listMean xs))|
      ≤ |listMean (xs.map rnd) - listMean xs| + |listMean xs - rnd (listMean xs)| :=
        abs_add _ _
    _ ≤ eps + eps :=
        add_le_add (listMean_map_sub_le xs rnd eps hx h)
          (by rw [abs_sub_comm]; exact h _)
    _ = 2 * eps := by ring

/-- C2: for every fold count `k ≥ 2` the returned ScoreGrid has exactly
`k + 2` rows — the `k` per-fold rows in fold-ascending order followed by
the Mean row and then the SD row — and the MAE stored in the Mean row equals the
arithmetic mean of the `k` fold MAE values within rounding tolerance
(`2 * eps` for any cell-rounding `rnd` that moves a value by at most
`eps`). -/
theorem create_model_grid_props (folds : List FoldData) (rnd : ℝ → ℝ) (eps : ℝ)
    (hfold : 2 ≤ folds.length) (hrnd : ∀ x, |rnd x - x| ≤ eps) :
    (create_model_result rnd folds).length = folds.length + 2 ∧
    create_model_result rnd folds =
      folds.map (fun fd => mapRow rnd (scoreFold fd)) ++
        [mapRow rnd (meanRow (folds.map scoreFold)),
         mapRow rnd (stdRow (folds.map scoreFold))] ∧
    |listMean (((create_model_result rnd folds).take folds.length).map ScoreRow.mae) -
        ((create_model_result rnd folds).getD folds.length default).mae| ≤ 2 * eps := by
  have hshape : create_model_result rnd folds =
      folds.map (fun fd => mapRow rnd (scoreFold fd)) ++
        [mapRow rnd (meanRow (folds.map scoreFold)),
         mapRow rnd (stdRow (folds.map scoreFold))] := by
    simp [create_model_result, scoreGrid, List.map_map, Function.comp]
  have hlenA : (folds.map (fun fd => mapRow rnd (scoreFold fd))).length = folds.length := by
    simp
  refine ⟨?_, hshape, ?_⟩
  · rw [hshape]
    simp
  · rw [hshape, ← hlenA, List.take_left, List.getD_append_right _ _ _ _ (le_refl _)]
    simp only [Nat.sub_self, List.getD_cons_zero]
    have hmaes : (folds.map (fun fd => mapRow rnd (scoreFold fd))).map ScoreRow.mae =
        ((folds.map scoreFold).map ScoreRow.mae).map rnd := by
      simp [List.map_map, Function.comp, mapRow]
    have hmean : (mapRow rnd (meanRow (folds.map scoreFold))).mae =
        rnd (listMean ((folds.map scoreFold).map ScoreRow.mae)) := rfl
    rw [hmaes, hmean]
    have hxne : (folds.map scoreFold).map ScoreRow.mae ≠ [] := by
      intro hcon
      rw [List.map_eq_nil_iff, List.map_eq_nil_iff] at hcon
      rw [hcon] at hfold
      simp at hfold
    exact mean_of_rounded_close _ rnd eps hxne hrnd

/-- Witness for C2: the two folds of `cfolds` with the identity rounding
(`eps = 0`). -/
theorem create_model_grid_props_witness :
    (2 ≤ cfolds.length) ∧
      ((create_model_result id cfolds).length = cfolds.length + 2 ∧
        create_model_result id cfolds =
          cfolds.map (fun fd => mapRow id (scoreFold fd)) ++
            [mapRow id (meanRow (cfolds.map scoreFold)),
             mapRow id (stdRow (cfolds.map scoreFold))] ∧
        |listMean (((create_model_result id cfolds).take cfolds.length).map ScoreRow.mae) -
            ((create_model_result id cfolds).getD cfolds.length default).mae| ≤ 2 * 0) :=
  ⟨by simp [cfolds],
    create_model_grid_props cfolds id 0 (by simp [cfolds]) (fun x => by simp)⟩

/-- Counterexample for C1: on two folds with held-out values `2` and
`14` (both predicted as `0`) the fold MSEs are `4` and `196`; the Mean
row stores `RMSE = (2 + 14) / 2 = 8` and `MSE = 100`, but
`sqrt(100) = 10`, so the Mean row violates `RMSE = sqrt(MSE)`. -/
theorem create_model_mean_rmse_counterexample :
    ¬ (((scoreGrid cfolds).getD 2 default).rmse =
        Real.sqrt (((scoreGrid cfolds).getD 2 default).mse)) := by
  have hmse1 : mean_squared_error [(2 : ℝ)] [0] = 4 := by
    simp [mean_squared_error, listMean]
    norm_num
  have hmse2 : mean_squared_error [(14 : ℝ)] [0] = 196 := by
    simp [mean_squared_error, listMean]
    norm_num
  have hrow : (scoreGrid cfolds).getD 2 default = meanRow (cfolds.map scoreFold) := by
    rfl
  have hrmse : (meanRow (cfolds.map scoreFold)).rmse = 8 := by
    simp only [meanRow, cfolds, List.map_cons, List.map_nil, scoreFold, hmse1, hmse2]
    rw [show Real.sqrt 4 = 2 by
        rw [show (4 : ℝ) = 2 ^ 2 by norm_num]
        exact Real.sqrt_sq (by norm_num)]
    rw [show Real.sqrt 196 = 14 by
        rw [show (196 : ℝ) = 14 ^ 2 by norm_num]
        exact Real.sqrt_sq (by norm_num)]
    simp [listMean]
    norm_num
  have hmse : (meanRow (cfolds.map scoreFold)).mse = 100 := by
    simp only [meanRow, cfolds, List.map_cons, List.map_nil, scoreFold, hmse1, hmse2]
    simp [listMean]
    norm_num
  rw [hrow, hrmse, hmse]
  rw [show Real.sqrt 100 = 10 by
      rw [show (100 : ℝ) = 10 ^ 2 by norm_num]
      exact Real.sqrt_sq (by norm_num)]
  norm_num

/-- C1 amended: every per-fold row of the ScoreGrid satisfies
`RMSE = sqrt(MSE)`; the RMSE of the Mean row is the arithmetic mean of
the fold RMSE values, which in general differs from the square root of
the MSE of the Mean row. -/
theorem create_model_rmse_rows (folds : List FoldData) :
    (∀ i, i < folds.length →
      ((scoreGrid folds).getD i default).rmse =
        Real.sqrt (((scoreGrid folds).getD i default).mse)) ∧
    ((scoreGrid folds).getD folds.length default).rmse =
      listMean (folds.map
        (fun fd => Real.sqrt (mean_squared_error fd.ytest fd.pred))) := by
  constructor
  · intro i hi
    have hi2 : i < (folds.map scoreFold).length := by simpa using hi
    rw [scoreGrid, List.getD_append _ _ _ _ hi2, List.getD_eq_getElem _ _ hi2,
      List.getElem_map]
    rfl
  · have hlen : (folds.map scoreFold).length = folds.length := by simp
    rw [scoreGrid, List.getD_append_right _ _ _ _ (le_of_eq hlen), hlen,
      Nat.sub_self, List.getD_cons_zero]
    show listMean ((folds.map scoreFold).map ScoreRow.rmse) = _
    rw [List.map_map]
    rfl

/-- Witness for C1 (amended): on `cfolds`, fold row 0 satisfies
`RMSE = sqrt(MSE)` and the RMSE of the Mean row is the mean of the fold
RMSEs. -/
theorem create_model_rmse_rows_witness :
    ((scoreGrid cfolds).getD 0 default).rmse =
        Real.sqrt (((scoreGrid cfolds).getD 0 default).mse) ∧
      ((scoreGrid cfolds).getD cfolds.length default).rmse =
        listMean (cfolds.map
          (fun fd => Real.sqrt (mean_squared_error fd.ytest fd.pred))) :=
  ⟨(create_model_rmse_rows cfolds).1 0 (by simp [cfolds]),
    (create_model_rmse_rows cfolds).2⟩

end Pycaret
